import Mathlib

/-! Verification of the URL-shortener core (api/utils.py, api/cache.py,
api/rate_limit.py, api/main.py): Base62 codec, alias validation, cache-layer
fail-open behaviour, rate limiting, and the short-code resolution pipeline. -/

namespace UrlShortener

/-- Base62 character set from api/utils.py: lowercase, uppercase, digits, in that order. -/
def BASE62 : List Char :=
  "abcdefghijklmnopqrstuvwxyzABCDEFGHIJKLMNOPQRSTUVWXYZ0123456789".toList

/-- Index of the first occurrence of a character in a list, mirroring Python
str.index; Python raises ValueError when the character is absent, modelled
here as none. -/
def strIndex (c : Char) : List Char → Option Nat
  | [] => none
  | x :: xs => if x = c then some 0 else (strIndex c xs).map (· + 1)

/-- Loop body of encode_id: `result = BASE62[id % 62] + result; id //= 62`
repeated while `id > 0`, with `acc` the result built so far. -/
def encodeLoop (n : Nat) (acc : List Char) : List Char :=
  if h : n = 0 then acc
  else encodeLoop (n / 62) (BASE62.getD (n % 62) 'a' :: acc)
termination_by n
decreasing_by exact Nat.div_lt_self (Nat.pos_of_ne_zero h) (by decide)

/-- encode_id from api/utils.py: convert a database ID to a Base62 short code. -/
def encode_id (id : Nat) : List Char :=
  if id = 0 then [BASE62.getD 0 'a'] else encodeLoop id []

/-- Horner loop of decode_base62, carrying the running result
(`result = result * 62 + BASE62.index(char)` per character). -/
def decodeFrom (acc : Nat) : List Char → Option Nat
  | [] => some acc
  | c :: cs =>
    match strIndex c BASE62 with
    | none => none
    | some i => decodeFrom (acc * 62 + i) cs

/-- decode_base62 from api/utils.py: convert a Base62 short code back to an ID.
A character outside the alphabet makes Python str.index raise ValueError,
modelled as none. -/
def decode_base62 (s : List Char) : Option Nat := decodeFrom 0 s

/-- Value 62 to the power of the number of Base62 digits of n (0 digits for n = 0). -/
def pow62 (n : Nat) : Nat :=
  if n = 0 then 1 else 62 * pow62 (n / 62)
termination_by n
decreasing_by exact Nat.div_lt_self (Nat.pos_of_ne_zero (by assumption)) (by decide)

theorem strIndex_base62 : ∀ i < 62, strIndex (BASE62.getD i 'a') BASE62 = some i := by
  decide

theorem strIndex_eq_none (c : Char) : ∀ l : List Char, c ∉ l → strIndex c l = none := by
  intro l
  induction l with
  | nil => intro _; rfl
  | cons x xs ih =>
    intro hmem
    rw [strIndex]
    rw [if_neg (by simp at hmem; exact fun hxc => hmem.1 hxc.symm)]
    rw [ih (by simp at hmem; exact hmem.2)]
    rfl

theorem decodeFrom_digit (v d : Nat) (hd : d < 62) (cs : List Char) :
    decodeFrom v (BASE62.getD d 'a' :: cs) = decodeFrom (v * 62 + d) cs := by
  rw [decodeFrom, strIndex_base62 d hd]

theorem decodeFrom_encodeLoop (n : Nat) :
    ∀ v cs, decodeFrom v (encodeLoop n cs) = decodeFrom (v * pow62 n + n) cs := by
  induction n using Nat.strong_induction_on with
  | _ n ih =>
    intro v cs
    by_cases h : n = 0
    · subst h
      rw [encodeLoop, pow62]
      simp
    · rw [encodeLoop, dif_neg h]
      rw [ih (n / 62) (Nat.div_lt_self (Nat.pos_of_ne_zero h) (by decide)) v _]
      rw [decodeFrom_digit _ (n % 62) (Nat.mod_lt n (by decide)) cs]
      have hpow : pow62 n = 62 * pow62 (n / 62) := by
        rw [pow62]; simp [h]
      have hDM : n / 62 * 62 + n % 62 = n := by
        rw [Nat.mul_comm]; exact Nat.div_add_mod n 62
      have harith : (v * pow62 (n / 62) + n / 62) * 62 + n % 62 = v * pow62 n + n := by
        calc (v * pow62 (n / 62) + n / 62) * 62 + n % 62
            = v * (62 * pow62 (n / 62)) + (n / 62 * 62 + n % 62) := by ring
          _ = v * pow62 n + n := by rw [hDM, hpow]
      rw [harith]

/-- Claim C2: for every non-negative integer x, decoding the encoding of x
returns x: `decode_base62 (encode_id x) = some x`. -/
theorem decode_encode_roundtrip (x : Nat) : decode_base62 (encode_id x) = some x := by
  unfold decode_base62 encode_id
  by_cases h : x = 0
  · subst h; decide
  · rw [if_neg h, decodeFrom_encodeLoop x 0 []]
    simp [decodeFrom]

theorem decodeFrom_bad_char (c : Char) (hc : c ∉ BASE62) (post : List Char) :
    ∀ pre : List Char, ∀ acc : Nat, decodeFrom acc (pre ++ c :: post) = none := by
  intro pre
  induction pre with
  | nil =>
    intro acc
    rw [List.nil_append, decodeFrom, strIndex_eq_none c BASE62 hc]
  | cons x xs ih =>
    intro acc
    rw [List.cons_append, decodeFrom]
    cases hx : strIndex x BASE62 with
    | none => rfl
    | some i => exact ih _

/-- Claim C8: decoding the empty string returns 0, and decoding any string
containing a character outside the 62-symbol alphabet fails (returns no value). -/
theorem decode_empty_and_invalid (pre post : List Char) (c : Char) (h : c ∉ BASE62) :
    decode_base62 [] = some 0 ∧ decode_base62 (pre ++ c :: post) = none :=
  ⟨rfl, decodeFrom_bad_char c h post pre 0⟩

/-- Witness for C8 at the concrete input ".". -/
theorem decode_empty_and_invalid_witness :
    decode_base62 [] = some 0 ∧ decode_base62 (['.'] : List Char) = none :=
  decode_empty_and_invalid [] [] '.' (by decide)

theorem decodeFrom_leading_a (k : Nat) :
    ∀ s : List Char, decodeFrom 0 (List.replicate k 'a' ++ s) = decodeFrom 0 s := by
  induction k with
  | zero => intro s; rfl
  | succ k ih =>
    intro s
    rw [List.replicate_succ, List.cons_append, decodeFrom]
    have ha : strIndex 'a' BASE62 = some 0 := by decide
    rw [ha]
    exact ih s

/-- Claim C9: decode is not injective on valid codes: prepending k ≥ 1 copies
of the first alphabet character to `encode_id x` gives a distinct string that
still decodes to x. -/
theorem decode_not_injective (x k : Nat) (hk : 1 ≤ k) :
    decode_base62 (List.replicate k 'a' ++ encode_id x) = some x ∧
      List.replicate k 'a' ++ encode_id x ≠ encode_id x := by
  constructor
  · rw [decode_base62, decodeFrom_leading_a k (encode_id x)]
    exact decode_encode_roundtrip x
  · intro heq
    have hlen := congrArg List.length heq
    simp at hlen
    omega

/-- Witness for C9 at x = 5, k = 2. -/
theorem decode_not_injective_witness :
    decode_base62 (List.replicate 2 'a' ++ encode_id 5) = some 5 ∧
      List.replicate 2 'a' ++ encode_id 5 ≠ encode_id 5 :=
  decode_not_injective 5 2 (by decide)

/-- Character class `[a-zA-Z0-9_-]` of the alias regex in api/utils.py. -/
def aliasChar (c : Char) : Bool :=
  ('a' ≤ c && c ≤ 'z') || ('A' ≤ c && c ≤ 'Z') || ('0' ≤ c && c ≤ '9') || c == '_' || c == '-'

/-- Python re end anchor: without MULTILINE, `$` matches at a position pos of s
when pos is the end of the string, or pos is just before a newline that is the
last character of the string. -/
def pyDollar (s : List Char) (pos : Nat) : Bool :=
  pos == s.length || (pos + 1 == s.length && s.getD pos ' ' == '\n')

/-- Match of the regex `[a-zA-Z0-9_-]\x7b3,20\x7d$` anchored at the start of s,
with Python backtracking semantics: the match succeeds when some repetition
count n between 3 and 20 consumes n class characters from the start and the end
anchor matches right after them. -/
def aliasRegexMatch (s : List Char) : Bool :=
  (List.range 18).any fun k =>
    decide (k + 3 ≤ s.length) && (s.take (k + 3)).all aliasChar && pyDollar s (k + 3)

/-- is_valid_alias from api/utils.py: false on the empty string, otherwise
the truth value of matching the alias regex. -/
def is_valid_alias (s : List Char) : Bool :=
  if s.isEmpty then false else aliasRegexMatch s

theorem aliasRegexMatch_iff (s : List Char) :
    aliasRegexMatch s = true ↔
      ∃ n, 3 ≤ n ∧ n ≤ 20 ∧ n ≤ s.length ∧
        (∀ c ∈ s.take n, aliasChar c = true) ∧
        (n = s.length ∨ (n + 1 = s.length ∧ s.getD n ' ' = '\n')) := by
  rw [aliasRegexMatch, List.any_eq_true]
  constructor
  · rintro ⟨k, hk, hcond⟩
    simp only [Bool.and_eq_true, decide_eq_true_iff, List.all_eq_true, pyDollar,
      Bool.or_eq_true, beq_iff_eq] at hcond
    exact ⟨k + 3, by omega, by simp at hk; omega, hcond.1.1, hcond.1.2, hcond.2⟩
  · rintro ⟨n, h3, h20, hlen, hall, hend⟩
    refine ⟨n - 3, by simp; omega, ?_⟩
    have hn : n - 3 + 3 = n := by omega
    rw [hn]
    simp only [Bool.and_eq_true, decide_eq_true_iff, List.all_eq_true, pyDollar,
      Bool.or_eq_true, beq_iff_eq]
    exact ⟨⟨hlen, hall⟩, hend⟩

/-- Counterexample to claim C3: the string "abc" followed by a newline is
accepted by is_valid_alias even though the newline is outside `[A-Za-z0-9_-]`,
because the Python `$` anchor matches before a trailing newline. -/
theorem is_valid_alias_newline_accepted :
    is_valid_alias ['a', 'b', 'c', '\n'] = true ∧ aliasChar '\n' = false := by
  decide

/-- Claim C3 as amended: is_valid_alias accepts exactly the strings of length
3 to 20 all of whose characters are in `[A-Za-z0-9_-]`, together with the
strings obtained from those by appending one trailing newline. -/
theorem is_valid_alias_characterization (s : List Char) :
    is_valid_alias s = true ↔
      (3 ≤ s.length ∧ s.length ≤ 20 ∧ ∀ c ∈ s, aliasChar c = true) ∨
        (4 ≤ s.length ∧ s.length ≤ 21 ∧ s.getLast? = some '\n' ∧
          ∀ c ∈ s.dropLast, aliasChar c = true) := by
  rw [is_valid_alias]
  by_cases hemp : s.isEmpty
  · rw [if_pos hemp]
    have : s.length = 0 := by simpa [List.isEmpty_iff_length_eq_zero] using hemp
    constructor
    · intro h; exact absurd h (by simp)
    · intro h; omega
  · rw [if_neg hemp, aliasRegexMatch_iff]
    constructor
    · rintro ⟨n, h3, h20, hlen, hall, hend⟩
      rcases hend with heq | ⟨heq, hnl⟩
      · left
        refine ⟨by omega, by omega, ?_⟩
        intro c hc
        exact hall c (by rw [heq, List.take_length]; exact hc)
      · right
        refine ⟨by omega, by omega, ?_, ?_⟩
        · rw [List.getLast?_eq_getElem?]
          have hn : n < s.length := by omega
          have : s.length - 1 = n := by omega
          rw [this, List.getElem?_eq_getElem hn]
          have hg : s.getD n ' ' = s[n] := by
            rw [List.getD_eq_getElem?_getD, List.getElem?_eq_getElem hn]
            rfl
          rw [hg] at hnl
          simp [hnl]
        · intro c hc
          apply hall
          rw [List.dropLast_eq_take] at hc
          have : s.length - 1 = n := by omega
          rwa [this] at hc
    · rintro (⟨h3, h20, hall⟩ | ⟨h4, h21, hlast, hall⟩)
      · refine ⟨s.length, h3, h20, le_refl _, ?_, Or.inl rfl⟩
        intro c hc
        exact hall c (by rwa [List.take_length] at hc)
      · refine ⟨s.length - 1, by omega, by omega, by omega, ?_, Or.inr ⟨by omega, ?_⟩⟩
        · intro c hc
          apply hall
          rwa [List.dropLast_eq_take]
        · rw [List.getLast?_eq_getElem?] at hlast
          have hn : s.length - 1 < s.length := by omega
          rw [List.getElem?_eq_getElem hn] at hlast
          simp at hlast
          rw [List.getD_eq_getElem?_getD, List.getElem?_eq_getElem hn]
          simpa using hlast

/-- Outcome of a call on the underlying Upstash client: a returned value, or a
raised exception. -/
inductive ClientOutcome (α : Type) where
  | ok (a : α)
  | exn
deriving DecidableEq

namespace RedisCache

/-- RedisCache.get from api/cache.py: none when disabled or no client, the
client's result on success, none when the client raises. -/
def get (enabled hasClient : Bool) (client : ClientOutcome (Option String)) : Option String :=
  if !enabled || !hasClient then none
  else match client with
    | .ok r => r
    | .exn => none

/-- RedisCache.set from api/cache.py: false when disabled or no client, true
when the client's setex succeeds, false when it raises. -/
def set (enabled hasClient : Bool) (client : ClientOutcome Unit) : Bool :=
  if !enabled || !hasClient then false
  else match client with
    | .ok _ => true
    | .exn => false

/-- RedisCache.delete from api/cache.py: same shape as set. -/
def delete (enabled hasClient : Bool) (client : ClientOutcome Unit) : Bool :=
  if !enabled || !hasClient then false
  else match client with
    | .ok _ => true
    | .exn => false

/-- RedisCache.increment from api/cache.py: none when disabled or no client,
the incremented counter on success, none when the client raises. -/
def increment (enabled hasClient : Bool) (client : ClientOutcome Int) : Option Int :=
  if !enabled || !hasClient then none
  else match client with
    | .ok v => some v
    | .exn => none

/-- RedisCache.expire from api/cache.py: same shape as set. -/
def expire (enabled hasClient : Bool) (client : ClientOutcome Unit) : Bool :=
  if !enabled || !hasClient then false
  else match client with
    | .ok _ => true
    | .exn => false

/-- RedisCache.health_check from api/cache.py: false when disabled or no
client, true exactly when the client's ping returns "PONG", false when it
raises. -/
def health_check (enabled hasClient : Bool) (client : ClientOutcome String) : Bool :=
  if !enabled || !hasClient then false
  else match client with
    | .ok r => r == "PONG"
    | .exn => false

end RedisCache

/-- Claim C5: every cache operation is fail-open. When the layer is disabled
the operation returns its failure-safe default (none / false) for every
possible client outcome (so no I/O result is consulted), and when the
underlying client raises, the exception is converted to that same default. -/
theorem cache_fail_open (hasClient e : Bool)
    (g : ClientOutcome (Option String)) (u1 u2 u3 : ClientOutcome Unit)
    (i : ClientOutcome Int) (p : ClientOutcome String) :
    (RedisCache.get false hasClient g = none ∧
      RedisCache.set false hasClient u1 = false ∧
      RedisCache.delete false hasClient u2 = false ∧
      RedisCache.increment false hasClient i = none ∧
      RedisCache.expire false hasClient u3 = false ∧
      RedisCache.health_check false hasClient p = false) ∧
    (RedisCache.get e hasClient .exn = none ∧
      RedisCache.set e hasClient .exn = false ∧
      RedisCache.delete e hasClient .exn = false ∧
      RedisCache.increment e hasClient .exn = none ∧
      RedisCache.expire e hasClient .exn = false ∧
      RedisCache.health_check e hasClient .exn = false) := by
  cases e <;> cases hasClient <;>
    exact ⟨⟨rfl, rfl, rfl, rfl, rfl, rfl⟩, ⟨rfl, rfl, rfl, rfl, rfl, rfl⟩⟩

/-- Decision of one rate-limit check: allow the request, or reject it with the
configured limit and window embedded in the error. -/
inductive RateLimitResult where
  | allowed
  | limited (limit window : Nat)
deriving DecidableEq

/-- check_rate_limit from api/rate_limit.py, as a function of the limiter's
enabled flag and the result of the cache increment (the increment already
converts client exceptions to none). Returns the throttling decision together
with whether an expiry was set on the counter key (done when the post-increment
count equals 1). -/
def check_rate_limit (enabled : Bool) (incr : Option Nat) (limit window : Nat) :
    RateLimitResult × Bool :=
  if !enabled then (.allowed, false)
  else match incr with
    | none => (.allowed, false)
    | some count =>
      let expireCalled := count == 1
      if limit < count then (.limited limit window, expireCalled)
      else (.allowed, expireCalled)

/-- Claim C4: with the layer enabled and the increment returning a count, the
check fails with the rate-limit error carrying the configured limit and window
exactly when the post-increment count strictly exceeds the limit; with the
layer disabled the check always allows the request. -/
theorem check_rate_limit_spec (incr other : Option Nat) (limit window c : Nat)
    (h : incr = some c) :
    ((check_rate_limit true incr limit window).1 = .limited limit window ↔ limit < c) ∧
      (check_rate_limit false other limit window).1 = .allowed := by
  subst h
  constructor
  · rw [check_rate_limit]
    by_cases hc : limit < c
    · simp [hc]
    · simp [hc]
  · rfl

/-- Witness for C4: limit 10, window 60, post-increment count 11 is limited,
and a disabled limiter allows. -/
theorem check_rate_limit_spec_witness :
    ((check_rate_limit true (some 11) 10 60).1 = .limited 10 60 ↔ 10 < 11) ∧
      (check_rate_limit false (some 999) 10 60).1 = .allowed :=
  check_rate_limit_spec (some 11) (some 999) 10 60 11 rfl

/-- A row of the urls table (api/models.py, class Url). -/
structure Url where
  id : Nat
  original_url : String
  custom_alias : Option (List Char)
  created_at : Nat
  is_active : Bool
  click_count : Nat
deriving DecidableEq

/-- A row of the clicks table (api/models.py, class Click): request metadata
captured at click time. -/
structure Click where
  url_id : Nat
  ip_address : String
  user_agent : Option String
  referer : Option String
deriving DecidableEq

/-- Request metadata available to a handler (client host and headers). -/
structure RequestMeta where
  ip : String
  user_agent : Option String
  referer : Option String
deriving DecidableEq

/-- A cache value together with the TTL it was stored with. -/
structure CacheEntry where
  value : String
  ttl : Nat
deriving DecidableEq

/-- Combined observable state of a request handler: the urls and clicks tables
of the durable store plus the cache contents. The cache layer is modelled as
enabled and reachable here (its fail-open degradation is verified separately
on the RedisCache operations). -/
structure ServerState where
  urls : List Url
  clicks : List Click
  cacheEntries : List (List Char × CacheEntry)
deriving DecidableEq

/-- Lookup of a key in the cache, newest entry first (a Redis SETEX overwrites,
modelled by prepending). -/
def cacheLookup : List (List Char × CacheEntry) → List Char → Option CacheEntry
  | [], _ => none
  | (k, e) :: rest, key => if k = key then some e else cacheLookup rest key

/-- Cache key used by redirect_url: the string "url:" followed by the short code. -/
def urlKey (code : List Char) : List Char := "url:".toList ++ code

/-- Truthiness test Python applies to the fetched cache value
(`if cached_url:`): a present but empty string counts as a miss. -/
def pythonTruthy : Option CacheEntry → Option String
  | some e => if e.value = "" then none else some e.value
  | none => none

/-- First select of redirect_url (api/main.py lines 205-208): the first url row
whose custom_alias equals the short code and whose is_active flag is set. -/
def findByAliasActive (urls : List Url) (code : List Char) : Option Url :=
  urls.find? fun r => decide (r.custom_alias = some code) && r.is_active

/-- Second select of redirect_url (api/main.py lines 213-216): the first url
row with the decoded id and the is_active flag set. -/
def findByIdActive (urls : List Url) (id : Nat) : Option Url :=
  urls.find? fun r => decide (r.id = id) && r.is_active

/-- Lookup cascade of redirect_url on a cache miss: alias first, then Base62
decode of the short code; a decode failure is swallowed and returns nothing. -/
def lookupActiveRecord (urls : List Url) (code : List Char) : Option Url :=
  match findByAliasActive urls code with
  | some r => some r
  | none =>
    match decode_base62 code with
    | some id => findByIdActive urls id
    | none => none

/-- Outcome of a resolution request: a 301 redirect or a 404. -/
inductive RedirectOutcome where
  | redirect (url : String)
  | notFound
deriving DecidableEq

/-- Success path of redirect_url (api/main.py lines 225-247): insert a click
row, increment the matched row's click_count in place, then write the
destination to the cache with TTL 3600 when the click_count seen after the
update is at least 10. The ORM update synchronizes the loaded object
(synchronize_session evaluates `click_count + 1` on it, and the session does
not expire on commit), so the threshold check reads the post-increment value. -/
def recordClickAndPromote (st : ServerState) (code : List Char) (meta : RequestMeta)
    (rec : Url) : RedirectOutcome × ServerState :=
  let click : Click := ⟨rec.id, meta.ip, meta.user_agent, meta.referer⟩
  let urls2 := st.urls.map fun r =>
    if r.id = rec.id then { r with click_count := r.click_count + 1 } else r
  let cache2 :=
    if 10 ≤ rec.click_count + 1 then (urlKey code, ⟨rec.original_url, 3600⟩) :: st.cacheEntries
    else st.cacheEntries
  (.redirect rec.original_url, ⟨urls2, st.clicks ++ [click], cache2⟩)

/-- redirect_url from api/main.py: probe the cache under "url:" + short_code;
on a hit return the cached destination at once (a Click object is built on
this path but never added to the session, so nothing is persisted); on a miss
run the lookup cascade, 404 when nothing active matches, otherwise record the
click and conditionally promote. -/
def redirect_url (st : ServerState) (code : List Char) (meta : RequestMeta) :
    RedirectOutcome × ServerState :=
  match pythonTruthy (cacheLookup st.cacheEntries (urlKey code)) with
  | some u => (.redirect u, st)
  | none =>
    match lookupActiveRecord st.urls code with
    | none => (.notFound, st)
    | some rec => recordClickAndPromote st code meta rec

/-- State reached after n successive resolutions of the same code. -/
def resolveN (code : List Char) (meta : RequestMeta) : Nat → ServerState → ServerState
  | 0, st => st
  | n + 1, st => resolveN code meta n (redirect_url st code meta).2

/-- Stats payload returned by get_stats (api/main.py lines 270-276). -/
structure StatsResponse where
  short_code : List Char
  original_url : String
  click_count : Nat
  created_at : Nat
  is_active : Bool
deriving DecidableEq

/-- Alias select of get_stats (api/main.py lines 259-262): no is_active filter. -/
def findByAliasAny (urls : List Url) (code : List Char) : Option Url :=
  urls.find? fun r => decide (r.custom_alias = some code)

/-- Id select of get_stats (api/main.py lines 265-268): no is_active filter. -/
def findByIdAny (urls : List Url) (id : Nat) : Option Url :=
  urls.find? fun r => decide (r.id = id)

/-- Lookup cascade of get_stats: alias first, then Base62 decode, with no
is_active filtering on either select. -/
def lookupAnyRecord (urls : List Url) (code : List Char) : Option Url :=
  match findByAliasAny urls code with
  | some r => some r
  | none =>
    match decode_base62 code with
    | some id => findByIdAny urls id
    | none => none

/-- get_stats from api/main.py: 404 when the cascade finds nothing, otherwise
the record's statistics, including its is_active flag, with no filtering on
that flag. -/
def get_stats (st : ServerState) (code : List Char) : Option StatsResponse :=
  match lookupAnyRecord st.urls code with
  | none => none
  | some r => some ⟨code, r.original_url, r.click_count, r.created_at, r.is_active⟩

/-- A fresh active record with id 1 and no clicks yet. -/
def exampleUrl : Url := ⟨1, "https://example.com", none, 0, true, 0⟩

/-- Initial state holding only exampleUrl, with empty clicks table and cache. -/
def initSt : ServerState := ⟨[exampleUrl], [], []⟩

/-- Fixed request metadata used for repeated example resolutions. -/
def meta0 : RequestMeta := ⟨"127.0.0.1", none, none⟩

theorem encode_id_one : encode_id 1 = ['b'] := by
  rw [encode_id, if_neg (by decide), encodeLoop, dif_neg (by decide)]
  norm_num
  rw [encodeLoop, dif_pos rfl]
  decide

theorem redirect_found (st : ServerState) (code : List Char) (meta : RequestMeta)
    (rec : Url)
    (hmiss : cacheLookup st.cacheEntries (urlKey code) = none)
    (hfound : lookupActiveRecord st.urls code = some rec) :
    redirect_url st code meta = recordClickAndPromote st code meta rec := by
  rw [redirect_url, hmiss]
  show (match lookupActiveRecord st.urls code with
    | none => ((.notFound, st) : RedirectOutcome × ServerState)
    | some rec => recordClickAndPromote st code meta rec) = recordClickAndPromote st code meta rec
  rw [hfound]

theorem recordClickAndPromote_cache (st : ServerState) (code : List Char)
    (meta : RequestMeta) (rec : Url) :
    (recordClickAndPromote st code meta rec).2.cacheEntries =
      if 10 ≤ rec.click_count + 1 then
        (urlKey code, ⟨rec.original_url, 3600⟩) :: st.cacheEntries
      else st.cacheEntries := rfl

/-- Claim C1: on the cache-miss success path, the destination is written to
the cache under "url:" + short_code with TTL 3600 exactly when the
post-increment click_count is at least 10; in particular a fresh record's
destination is not cache-resident after 9 resolutions and is cache-resident
after exactly 10. -/
theorem promotion_threshold (st : ServerState) (code : List Char) (meta : RequestMeta)
    (rec : Url)
    (hmiss : cacheLookup st.cacheEntries (urlKey code) = none)
    (hfound : lookupActiveRecord st.urls code = some rec) :
    (cacheLookup (redirect_url st code meta).2.cacheEntries (urlKey code) =
        some ⟨rec.original_url, 3600⟩ ↔ 10 ≤ rec.click_count + 1) ∧
      cacheLookup (resolveN (encode_id 1) meta0 9 initSt).cacheEntries
        (urlKey (encode_id 1)) = none ∧
      cacheLookup (resolveN (encode_id 1) meta0 10 initSt).cacheEntries
        (urlKey (encode_id 1)) = some ⟨"https://example.com", 3600⟩ := by
  refine ⟨?_, by rw [encode_id_one]; decide, by rw [encode_id_one]; decide⟩
  rw [redirect_found st code meta rec hmiss hfound, recordClickAndPromote_cache]
  by_cases hth : 10 ≤ rec.click_count + 1
  · rw [if_pos hth]
    constructor
    · intro _; exact hth
    · intro _
      rw [cacheLookup, if_pos rfl]
  · rw [if_neg hth, hmiss]
    simp [hth]

/-- Witness for C1: the single-step characterization applied to the fresh
record exampleUrl at its own code. -/
theorem promotion_threshold_witness :
    (cacheLookup (redirect_url initSt (encode_id 1) meta0).2.cacheEntries
        (urlKey (encode_id 1)) = some ⟨exampleUrl.original_url, 3600⟩ ↔
      10 ≤ exampleUrl.click_count + 1) ∧
      cacheLookup (resolveN (encode_id 1) meta0 9 initSt).cacheEntries
        (urlKey (encode_id 1)) = none ∧
      cacheLookup (resolveN (encode_id 1) meta0 10 initSt).cacheEntries
        (urlKey (encode_id 1)) = some ⟨"https://example.com", 3600⟩ :=
  promotion_threshold initSt (encode_id 1) meta0 exampleUrl (by decide)
    (by rw [encode_id_one]; decide)

/-- Claim C6: a cache hit returns the cached destination and leaves the whole
state, in particular the urls and clicks tables of the durable store,
unchanged: no click row is inserted and no click_count is incremented. -/
theorem cache_hit_leaves_store (st : ServerState) (code : List Char) (meta : RequestMeta)
    (e : CacheEntry)
    (hhit : cacheLookup st.cacheEntries (urlKey code) = some e)
    (hval : e.value ≠ "") :
    redirect_url st code meta = (.redirect e.value, st) := by
  rw [redirect_url, hhit, pythonTruthy, if_neg hval]

/-- Witness for C6 on a one-entry cache. -/
theorem cache_hit_leaves_store_witness :
    redirect_url ⟨[], [], [(urlKey ['x'], ⟨"https://hit.example", 3600⟩)]⟩ ['x']
        ⟨"10.0.0.1", none, none⟩ =
      (.redirect "https://hit.example",
        ⟨[], [], [(urlKey ['x'], ⟨"https://hit.example", 3600⟩)]⟩) :=
  cache_hit_leaves_store ⟨[], [], [(urlKey ['x'], ⟨"https://hit.example", 3600⟩)]⟩ ['x']
    ⟨"10.0.0.1", none, none⟩ ⟨"https://hit.example", 3600⟩ (by decide) (by decide)

theorem lookupActive_none_of_inactive (urls : List Url) (code : List Char)
    (halias : ∀ r ∈ urls, r.custom_alias = some code → r.is_active = false)
    (hid : ∀ r ∈ urls, decode_base62 code = some r.id → r.is_active = false) :
    lookupActiveRecord urls code = none := by
  have h1 : findByAliasActive urls code = none := by
    apply List.find?_eq_none.mpr
    intro r hr hcontra
    rw [Bool.and_eq_true, decide_eq_true_iff] at hcontra
    rw [halias r hr hcontra.1] at hcontra
    exact Bool.false_ne_true hcontra.2
  rw [lookupActiveRecord, h1]
  cases hdec : decode_base62 code with
  | none => rfl
  | some id =>
    show findByIdActive urls id = none
    apply List.find?_eq_none.mpr
    intro r hr hcontra
    rw [Bool.and_eq_true, decide_eq_true_iff] at hcontra
    rw [hid r hr (by rw [hdec, hcontra.1])] at hcontra
    exact Bool.false_ne_true hcontra.2

theorem redirect_notFound_of_no_active (st : ServerState) (code : List Char)
    (meta : RequestMeta)
    (hmiss : cacheLookup st.cacheEntries (urlKey code) = none)
    (hnone : lookupActiveRecord st.urls code = none) :
    redirect_url st code meta = (.notFound, st) := by
  rw [redirect_url, hmiss]
  show (match lookupActiveRecord st.urls code with
    | none => ((.notFound, st) : RedirectOutcome × ServerState)
    | some rec => recordClickAndPromote st code meta rec) = (.notFound, st)
  rw [hnone]

/-- Claim C7: when every record matching the short code, whether through its
custom alias or through the Base62-decoded id, has is_active set to false, the
cache-miss resolution reports not-found and leaves the state unchanged. -/
theorem inactive_record_not_resolved (st : ServerState) (code : List Char)
    (meta : RequestMeta)
    (hmiss : cacheLookup st.cacheEntries (urlKey code) = none)
    (halias : ∀ r ∈ st.urls, r.custom_alias = some code → r.is_active = false)
    (hid : ∀ r ∈ st.urls, decode_base62 code = some r.id → r.is_active = false) :
    redirect_url st code meta = (.notFound, st) :=
  redirect_notFound_of_no_active st code meta hmiss
    (lookupActive_none_of_inactive st.urls code halias hid)

/-- Witness for C7: an inactive record reachable only through its alias "gone". -/
theorem inactive_record_not_resolved_witness :
    redirect_url ⟨[⟨2, "https://dead.example", some ['g', 'o', 'n', 'e'], 0, false, 5⟩], [], []⟩
        ['g', 'o', 'n', 'e'] ⟨"10.1.1.1", none, none⟩ =
      (.notFound, ⟨[⟨2, "https://dead.example", some ['g', 'o', 'n', 'e'], 0, false, 5⟩], [], []⟩) :=
  inactive_record_not_resolved
    ⟨[⟨2, "https://dead.example", some ['g', 'o', 'n', 'e'], 0, false, 5⟩], [], []⟩
    ['g', 'o', 'n', 'e'] ⟨"10.1.1.1", none, none⟩ (by decide) (by decide) (by decide)

/-- Claim C10: the stats lookup applies no is_active filter: a record found by
its short code is reported with its statistics, is_active = false included,
while the cache-miss resolution of the same code reports not-found. -/
theorem stats_ignore_active_flag (st : ServerState) (code : List Char)
    (meta : RequestMeta) (rec : Url)
    (hmiss : cacheLookup st.cacheEntries (urlKey code) = none)
    (hstat : lookupAnyRecord st.urls code = some rec)
    (hinact : rec.is_active = false)
    (halias : ∀ r ∈ st.urls, r.custom_alias = some code → r.is_active = false)
    (hid : ∀ r ∈ st.urls, decode_base62 code = some r.id → r.is_active = false) :
    get_stats st code =
        some ⟨code, rec.original_url, rec.click_count, rec.created_at, false⟩ ∧
      (redirect_url st code meta).1 = .notFound := by
  constructor
  · rw [get_stats, hstat]
    show some (⟨code, rec.original_url, rec.click_count, rec.created_at,
      rec.is_active⟩ : StatsResponse) = _
    rw [hinact]
  · rw [redirect_notFound_of_no_active st code meta hmiss
      (lookupActive_none_of_inactive st.urls code halias hid)]

/-- Witness for C10: an inactive record with alias "off" is visible through
get_stats but not resolvable. -/
theorem stats_ignore_active_flag_witness :
    get_stats ⟨[⟨3, "https://off.example", some ['o', 'f', 'f'], 7, false, 4⟩], [], []⟩
        ['o', 'f', 'f'] =
        some ⟨['o', 'f', 'f'], "https://off.example", 4, 7, false⟩ ∧
      (redirect_url ⟨[⟨3, "https://off.example", some ['o', 'f', 'f'], 7, false, 4⟩], [], []⟩
        ['o', 'f', 'f'] ⟨"10.2.2.2", none, none⟩).1 = .notFound :=
  stats_ignore_active_flag
    ⟨[⟨3, "https://off.example", some ['o', 'f', 'f'], 7, false, 4⟩], [], []⟩
    ['o', 'f', 'f'] ⟨"10.2.2.2", none, none⟩
    ⟨3, "https://off.example", some ['o', 'f', 'f'], 7, false, 4⟩
    (by decide) (by decide) (by decide) (by decide) (by decide)

end UrlShortener
